import Mathlib

/-
Formal model of the GROUP-BY / aggregation operator of GraphScope's HQPS engine
(flex/engines/hqps_db/core/operator/group_by.h), together with theorems about
its type-resolution table, its grouping algorithms (single-key, two-key and
key-less fold) and its output bookkeeping (tags, offset vectors, head column).

The C++ file under study is a header of compile-time dispatch plus three row
loops.  Pure template metafunctions (GroupValueResTImpl, GroupResT, FoldResT)
become Lean functions on small inductive types mirroring the C++ shapes; the
row loops become folds over explicit state.  Collaborators that live in other
headers of the repository (utils/keyed.h, core/context.h) are modelled from the
specification and marked as such in their doc comments.
-/

namespace gs

/-! ## Shapes and aggregate functions (params.h / collection.h types as used here) -/

/-- Element types appearing as template arguments in the header:
`grape::EmptyType` (the identity / no-property selector), `size_t`
(the COUNT result element), and arbitrary other property types. -/
inductive CppType : Type
  | emptyType : CppType
  | sizeT : CppType
  | propT : Nat → CppType
deriving DecidableEq

/-- The shapes of source columns the header's specializations distinguish:
`Collection<T>`, `RowVertexSet<...>`, `TwoLabelVertexSet<...>`. -/
inductive SetShape : Type
  | collection : CppType → SetShape
  | rowVertexSet : SetShape
  | twoLabelVertexSet : SetShape
deriving DecidableEq

/-- Aggregate functions referenced by the header's specializations of
`GroupValueResTImpl` (the `AggFunc` enum of params.h, as used here). -/
inductive AggFunc : Type
  | COUNT | COUNT_DISTINCT | SUM | TO_SET | TO_LIST | MIN | MAX | FIRST
deriving DecidableEq

/-- Result column shapes produced by the resolver: `Collection<T>`,
`Collection<std::vector<T>>`, and the symbolic `AggFirst<S>::result_t`
(AggFirst lives in utils/keyed.h, outside the file under study, so its
result type is kept symbolic on both the code side and the spec side). -/
inductive ResShape : Type
  | collection : CppType → ResShape
  | collectionVec : CppType → ResShape
  | aggFirstOf : SetShape → ResShape
deriving DecidableEq

/-- The resolver `GroupValueResTImpl<SET_T, agg_func, std::tuple<PropertySelector<T>>>`
translated specialization by specialization from group_by.h lines 72-162.
`none` models the absence of any matching specialization: instantiating the
primary (undefined) template is a compile-time failure.
A wildcard source shape mirrors a generic `SET_T` template parameter, and a
wildcard property type mirrors a generic `PropT`/`T` parameter (which in C++
also matches `grape::EmptyType`). -/
def GroupValueResTImpl : SetShape → AggFunc → CppType → Option ResShape
  | _, .COUNT, .emptyType => some (.collection .sizeT)
  | _, .COUNT_DISTINCT, .emptyType => some (.collection .sizeT)
  | .collection t, .SUM, .emptyType => some (.collection t)
  | .collection t, .TO_SET, .emptyType => some (.collectionVec t)
  | .rowVertexSet, .TO_SET, p => some (.collectionVec p)
  | .collection t, .TO_LIST, .emptyType => some (.collectionVec t)
  | .rowVertexSet, .TO_LIST, p => some (.collectionVec p)
  | .collection t, .MIN, .emptyType => some (.collection t)
  | .rowVertexSet, .MAX, t => some (.collection t)
  | .rowVertexSet, .FIRST, _ => some (.aggFirstOf .rowVertexSet)
  | .twoLabelVertexSet, .FIRST, .emptyType => some (.aggFirstOf .twoLabelVertexSet)
  | .collection t, .FIRST, .emptyType => some (.aggFirstOf (.collection t))
  | _, _, _ => none

/-- The fixed resolution table exactly as written in the specification (§4.1),
row by row, with rows not in the table resolving to `none` (a setup-time
failure).  "any, property = identity" is a wildcard source shape with the
identity selector; "vertex set, property P" rows carry an arbitrary selector
type P (the selector always has some type, identity included). -/
def specResolutionTable : SetShape → AggFunc → CppType → Option ResShape
  | _, .COUNT, .emptyType => some (.collection .sizeT)
  | _, .COUNT_DISTINCT, .emptyType => some (.collection .sizeT)
  | .collection t, .SUM, .emptyType => some (.collection t)
  | .collection t, .MIN, .emptyType => some (.collection t)
  | .collection t, .TO_SET, .emptyType => some (.collectionVec t)
  | .collection t, .TO_LIST, .emptyType => some (.collectionVec t)
  | .collection t, .FIRST, .emptyType => some (.aggFirstOf (.collection t))
  | .rowVertexSet, .TO_LIST, p => some (.collectionVec p)
  | .rowVertexSet, .TO_SET, p => some (.collectionVec p)
  | .rowVertexSet, .MAX, p => some (.collection p)
  | .rowVertexSet, .FIRST, _ => some (.aggFirstOf .rowVertexSet)
  | .twoLabelVertexSet, .FIRST, .emptyType => some (.aggFirstOf .twoLabelVertexSet)
  | _, _, _ => none

/-! ## Output tag layout (GroupResT, FoldResT) -/

/-- Base tag of the single-key group-by result context: `Rearrange<..., 0, ...>`
at group_by.h line 205-207 passes base tag 0. -/
def GroupResT1.base_tag : Nat := 0

/-- Head tag of the single-key result: `new_cur_alias = +sizeof...(AGG_T)`
(group_by.h line 203). -/
def GroupResT1.new_cur_alias (numAggs : Nat) : Nat := numAggs

/-- Base tag of the two-key group-by result context (group_by.h line 216-218). -/
def GroupResT2.base_tag : Nat := 0

/-- Head tag of the two-key result:
`new_cur_alias = sizeof...(GROUP_KEY) + sizeof...(AGG_T) - 1` (line 213-214). -/
def GroupResT2.new_cur_alias (numKeys numAggs : Nat) : Nat := numKeys + numAggs - 1

/-- Base tag of the fold result: `base_tag = CTX_T::max_tag_id + 1`
(group_by.h line 228). -/
def FoldResT.base_tag (max_tag_id : Nat) : Nat := max_tag_id + 1

/-- Head tag of the fold result: `new_head_tag = base_tag + sizeof...(AGG_T) - 1`
(group_by.h line 229). -/
def FoldResT.new_head_tag (max_tag_id numAggs : Nat) : Nat :=
  FoldResT.base_tag max_tag_id + numAggs - 1

/-- Modelled from the spec: the Context type (core/context.h, not under src/)
assigns its n columns the consecutive tags base_tag, base_tag+1, ...,
base_tag+n-1 in column order. -/
def contextTags (base_tag n : Nat) : List Nat :=
  (List.range n).map (fun i => base_tag + i)

/-- Tags of the single-key output context: one keyed set then the aggregate
sets, laid out from `GroupResT1.base_tag`. -/
def singleKeyOutputTags (numAggs : Nat) : List Nat :=
  contextTags GroupResT1.base_tag (1 + numAggs)

/-- Tags of the two-key output context: two key sets then the aggregate sets,
laid out from `GroupResT2.base_tag`. -/
def twoKeyOutputTags (numAggs : Nat) : List Nat :=
  contextTags GroupResT2.base_tag (2 + numAggs)

/-- Tags of the key-less fold output columns, laid out from
`FoldResT.base_tag max_tag_id`. -/
def foldOutputTags (max_tag_id numAggs : Nat) : List Nat :=
  contextTags (FoldResT.base_tag max_tag_id) numAggs

/-! ## Offset vectors -/

/-- Modelled from the spec: `make_offset_vector n g` (defined outside the file
under study) builds the offset bookkeeping for a one-to-one mapping over g
groups: n offset vectors, each equal to [0, 1, ..., g] (length g+1). -/
def make_offset_vector (n g : Nat) : List (List Nat) :=
  List.replicate n (List.range (g + 1))

/-- Offset vector of the single-key path:
`make_offset_vector(grouped_value_num, keyed_set_built.Size())`
(group_by.h lines 379-380). -/
def singleKeyOffsetVec (numAggs groups : Nat) : List (List Nat) :=
  make_offset_vector numAggs groups

/-- Offset vector of the two-key path:
`make_offset_vector(grouped_value_num + 1, keyed_set_built0.Size())`
(group_by.h lines 490-491). -/
def twoKeyOffsetVec (numAggs groups : Nat) : List (List Nat) :=
  make_offset_vector (numAggs + 1) groups

/-- The spec's slot count for a single-key result (§3: one offset vector per
"slot", parenthesized there as key columns + value columns): 1 key column
plus numAggs value columns. -/
def specSlotCount1 (numAggs : Nat) : Nat := 1 + numAggs

/-! ## Single-key grouping (GroupByImpl, group_by.h lines 307-391)

A row of the context is modelled by the pair of the elements the non-property
branch of the loop actually reads: the key column's element (key_ele, from
`gs::get_from_tuple<key_alias_t::tag_id>(ele_tuple)`) and an opaque payload
standing for the full (ele_tuple, data_tuple) handed to the value builders. -/

/-- State of the single-key row loop: the keyed set builder's contents and the
trace of group indices handed to `insert_to_value_set_builder`, row by row. -/
structure SKState (K V : Type) where
  keys : List K
  fed : List Nat
deriving DecidableEq

/-- Modelled from the spec: `insert` of the keyed set builder
(`KeyedT<...>::builder_t`, utils/keyed.h, not under src/) is an
order-preserving deduplicating insert — an element already present returns the
dense index of its first occurrence, a new element is appended and assigned the
next unused index (spec §2 Keyed Set Builder, §9 dense group-index assignment). -/
def keyedSetInsert {K : Type} [DecidableEq K] (keys : List K) (k : K) : List K × Nat :=
  if k ∈ keys then (keys, keys.findIdx (fun x => x = k))
  else (keys ++ [k], keys.length)

/-- One iteration of the non-property single-key loop (group_by.h lines
360-369): insert the row's key element into the keyed set builder, then feed
every value builder the returned index. -/
def singleKeyStep {K V : Type} [DecidableEq K] (s : SKState K V) (row : K × V) :
    SKState K V :=
  { keys := (keyedSetInsert s.keys row.1).1,
    fed := s.fed ++ [(keyedSetInsert s.keys row.1).2] }

/-- The single-key row loop from an arbitrary starting state. -/
def singleKeyRunFrom {K V : Type} [DecidableEq K] (s : SKState K V)
    (rows : List (K × V)) : SKState K V :=
  rows.foldl singleKeyStep s

/-- The single-key row loop over the whole context (builders start empty). -/
def singleKeyRun {K V : Type} [DecidableEq K] (rows : List (K × V)) : SKState K V :=
  singleKeyRunFrom { keys := [], fed := [] } rows

/-- Number of groups: the finalized keyed set's size. -/
def numGroups {K V : Type} [DecidableEq K] (rows : List (K × V)) : Nat :=
  (singleKeyRun rows).keys.length

/-- The dense group index a key value resolves to: its position in the
finalized keyed set. -/
def groupIndexOf {K V : Type} [DecidableEq K] (rows : List (K × V)) (k : K) : Nat :=
  (singleKeyRun rows).keys.findIdx (fun x => x = k)

/-- Modelled from the spec: the COUNT value builder (`KeyedAggT` with
`AggFunc::COUNT`, utils/keyed.h, not under src/) increments, on
`insert(ind, ...)`, the running count of group ind, and finalizes into the
collection of per-group counts. -/
def countAgg {K V : Type} [DecidableEq K] (rows : List (K × V)) : List Nat :=
  (List.range (numGroups rows)).map
    (fun g => (singleKeyRun rows).fed.countP (fun i => i = g))

/-- One step of first-occurrence deduplication: append k unless already seen. -/
def dedupStep {K : Type} [DecidableEq K] (acc : List K) (k : K) : List K :=
  if k ∈ acc then acc else acc ++ [k]

/-- First-occurrence deduplication of a list, keeping encounter order. -/
def firstOccurrences {K : Type} [DecidableEq K] (l : List K) : List K :=
  l.foldl dedupStep []

/-- Number of distinct (key0, key1) pairs of a two-key input. -/
def distinctPairCount {K0 K1 : Type} [DecidableEq K0] [DecidableEq K1]
    (rows : List (K0 × K1)) : Nat :=
  (firstOccurrences rows).length

/-! ## Single-key output column layout (for the head-column claim)

The single-key path concatenates the built keyed set with the built value sets
(`new_tuple`, line 382-383) and constructs the result context from
`std::get<grouped_value_num>(new_tuple)` as head and the first
`grouped_value_num` entries as previous columns (lines 385-388). -/

/-- A column of the single-key output, by provenance. -/
inductive OutCol : Type
  | keyedSet : OutCol
  | valueSet : Nat → OutCol
deriving DecidableEq

/-- `new_tuple` of the single-key path: the keyed set followed by the
numAggs value sets, in order. -/
def singleKeyNodes (numAggs : Nat) : List OutCol :=
  OutCol.keyedSet :: (List.range numAggs).map OutCol.valueSet

/-- The head column of the single-key result:
`std::get<grouped_value_num>(new_tuple)` (group_by.h line 386). -/
def singleKeyHeadCol (numAggs : Nat) : Option OutCol :=
  (singleKeyNodes numAggs)[numAggs]?

/-! ## Two-key grouping (GroupByImpl, group_by.h lines 393-506)

Only the branch where neither key is property-based is implemented.  A row is
modelled by its (key_ele0, key_ele1) pair; the data elements and the payload
fed to the value builders are irrelevant to the claims about this path, while
the trace of group indices handed to `insert_to_value_set_builder` is kept. -/

/-- State of the two-key row loop: the two (non-deduplicating) set builders,
the `key_tuple_set` map (as an insertion-ordered association list), the
`cur_ind` counter, and the trace of group indices fed to the value builders. -/
structure TKState (K0 K1 : Type) where
  keyed_set_builder0 : List K0
  keyed_set_builder1 : List K1
  key_tuple_set : List ((K0 × K1) × Nat)
  cur_ind : Nat
  fed : List Nat
deriving DecidableEq

/-- Lookup in `key_tuple_set` (`std::unordered_map::find`). -/
def lookupPair {K0 K1 : Type} [DecidableEq K0] [DecidableEq K1]
    (m : List ((K0 × K1) × Nat)) (k : K0 × K1) : Option Nat :=
  match m.find? (fun e => e.1 = k) with
  | some e => some e.2
  | none => none

/-- One iteration of the two-key loop (group_by.h lines 454-478), translated
with its exact C++ scoping: the outer `size_t ind = 0;` is only assigned in
the not-yet-seen branch; in the already-seen branch the statement
`auto ind = key_tuple_set[tmp_ele];` declares a NEW block-local variable, so
the outer `ind` passed to `insert_to_value_set_builder` remains 0 there. -/
def twoKeyStep {K0 K1 : Type} [DecidableEq K0] [DecidableEq K1]
    (s : TKState K0 K1) (k : K0 × K1) : TKState K0 K1 :=
  match lookupPair s.key_tuple_set k with
  | some _ =>
      { s with fed := s.fed ++ [0] }
  | none =>
      { keyed_set_builder0 := s.keyed_set_builder0 ++ [k.1],
        keyed_set_builder1 := s.keyed_set_builder1 ++ [k.2],
        key_tuple_set := s.key_tuple_set ++ [(k, s.cur_ind)],
        cur_ind := s.cur_ind + 1,
        fed := s.fed ++ [s.cur_ind] }

/-- The two-key row loop from an arbitrary starting state. -/
def twoKeyRunFrom {K0 K1 : Type} [DecidableEq K0] [DecidableEq K1]
    (s : TKState K0 K1) (rows : List (K0 × K1)) : TKState K0 K1 :=
  rows.foldl twoKeyStep s

/-- The two-key row loop over the whole context (builders and map start
empty, `cur_ind = 0`). -/
def twoKeyRun {K0 K1 : Type} [DecidableEq K0] [DecidableEq K1]
    (rows : List (K0 × K1)) : TKState K0 K1 :=
  twoKeyRunFrom { keyed_set_builder0 := [], keyed_set_builder1 := [],
                  key_tuple_set := [], cur_ind := 0, fed := [] } rows

/-- The `CHECK(keyed_set_built0.Size() == keyed_set_built1.Size())` at
group_by.h lines 482-484: equal sizes continue, unequal sizes abort the
operation with the fatal message "size ueq". -/
def CHECK_size_eq (a b : Nat) : Except String Unit :=
  if a = b then Except.ok () else Except.error ("size ueq")

/-- Result of the two-key path: the two finalized key columns, the fed-index
trace standing for the value columns, and the offset vector. -/
structure TKResult (K0 K1 : Type) where
  key0 : List K0
  key1 : List K1
  fed : List Nat
  offset_vec : List (List Nat)
deriving DecidableEq

/-- The two-key `GroupByImpl` (non-property branch), assembled: run the row
loop, build both key sets, run the fatal size CHECK, then build the result
with `make_offset_vector(grouped_value_num + 1, keyed_set_built0.Size())`. -/
def GroupByImpl2 {K0 K1 : Type} [DecidableEq K0] [DecidableEq K1]
    (numAggs : Nat) (rows : List (K0 × K1)) : Except String (TKResult K0 K1) :=
  match CHECK_size_eq (twoKeyRun rows).keyed_set_builder0.length
      (twoKeyRun rows).keyed_set_builder1.length with
  | Except.error e => Except.error e
  | Except.ok _ =>
      Except.ok { key0 := (twoKeyRun rows).keyed_set_builder0,
                  key1 := (twoKeyRun rows).keyed_set_builder1,
                  fed := (twoKeyRun rows).fed,
                  offset_vec := twoKeyOffsetVec numAggs
                    (twoKeyRun rows).keyed_set_builder0.length }

/-- In C++, a string literal used as the condition of a one-argument
`static_assert` decays to a non-null pointer, whose contextual conversion to
bool is `true` — for every literal. -/
def cxxStringLiteralAsBool (_s : String) : Bool := true

/-- Whether the `static_assert("Not implemented")` in the else branch of the
two-key `GroupByImpl` (group_by.h line 504, taken when a key is
property-based) fires a compile-time error: it fires iff its condition
converts to false. -/
def twoKeyPropertyBranchCompileError : Bool :=
  !(cxxStringLiteralAsBool ("Not implemented"))

/-! ## Key-less fold (GroupByWithoutKeyImpl, group_by.h lines 244-305) -/

/-- Arity of the fold's aggregate-descriptor tuple: the signature takes
`std::tuple<FOLD_OPT>&&`, exactly one descriptor (group_by.h line 252). -/
def foldAggArity : Nat := 1

/-- A row of the fold loop: `iter.GetTagOffset(start_tag)` (the row's tag
offset of the sub-task start tag) and an opaque payload standing for the
(ele_tuple, data_tuple) handed to the value builder. -/
structure FoldRow (V : Type) where
  tag_offset : Nat
  payload : V
deriving DecidableEq

/-- The fold's result context: the single built value set (modelled from the
spec as the value builder's insertion trace of (group index, payload), since
the concrete builders live in utils/keyed.h outside the file under study),
the sub-task start tag, and the offset vectors — the two-argument `RES_T`
constructor used at line 287-288 supplies none, embedded as the empty list. -/
structure FoldCtx (V : Type) where
  value_set : List (Nat × V)
  sub_task_start_tag : Nat
  offset_vec : List (List Nat)
deriving DecidableEq

/-- `GroupByWithoutKeyImpl` (group_by.h lines 249-305): if the context's
sub-task start tag is `INVALID_TAG` (modelled as `none`), abort fatally
(`LOG(FATAL)`, lines 261-263) before the row loop; otherwise run the row
loop, feeding each row to the value builder with group index
`iter.GetTagOffset(start_tag)`, and return the single built value set in a
context constructed without an offset vector. -/
def GroupByWithoutKeyImpl {V : Type} (sub_task_start_tag : Option Nat)
    (rows : List (FoldRow V)) : Except String (FoldCtx V) :=
  match sub_task_start_tag with
  | none => Except.error ("Not implemented now")
  | some start_tag =>
      Except.ok { value_set := rows.foldl (fun b r => b ++ [(r.tag_offset, r.payload)]) [],
                  sub_task_start_tag := start_tag, offset_vec := [] }

/-! ## Helper lemmas -/

theorem findIdx_append_of_found {α : Type} (p : α → Bool) (t : List α) :
    ∀ l : List α, (∃ x ∈ l, p x = true) → (l ++ t).findIdx p = l.findIdx p := by
  intro l
  induction l with
  | nil => intro h; simp at h
  | cons a l ih =>
      intro h
      cases hpa : p a with
      | true => simp [List.findIdx_cons, hpa]
      | false =>
          have h' : ∃ x ∈ l, p x = true := by
            obtain ⟨x, hx, hpx⟩ := h
            rcases List.mem_cons.mp hx with rfl | hm
            · rw [hpa] at hpx; exact Bool.noConfusion hpx
            · exact ⟨x, hm, hpx⟩
          simp [List.findIdx_cons, hpa, ih h']

theorem findIdx_append_new {α : Type} [DecidableEq α] (k : α) (t : List α) :
    ∀ l : List α, k ∉ l → (l ++ k :: t).findIdx (fun x => x = k) = l.length := by
  intro l
  induction l with
  | nil => intro h; simp [List.findIdx_cons]
  | cons a l ih =>
      intro h
      have ha : ¬(a = k) := by
        intro e; subst e; exact h (List.mem_cons_self a l)
      have hl : k ∉ l := fun hm => h (List.mem_cons_of_mem a hm)
      simp [List.findIdx_cons, ha, ih hl]

theorem singleKeyRunFrom_keys_extend {K V : Type} [DecidableEq K]
    (rows : List (K × V)) :
    ∀ s : SKState K V, ∃ t, (singleKeyRunFrom s rows).keys = s.keys ++ t := by
  induction rows with
  | nil => intro s; exact ⟨[], by simp [singleKeyRunFrom]⟩
  | cons r rows ih =>
      intro s
      obtain ⟨t, ht⟩ := ih (singleKeyStep s r)
      have hstep : singleKeyRunFrom s (r :: rows)
          = singleKeyRunFrom (singleKeyStep s r) rows := rfl
      by_cases h : r.1 ∈ s.keys
      · refine ⟨t, ?_⟩
        rw [hstep, ht]
        simp [singleKeyStep, keyedSetInsert, h]
      · refine ⟨r.1 :: t, ?_⟩
        rw [hstep, ht]
        simp [singleKeyStep, keyedSetInsert, h]

theorem singleKeyRunFrom_fed {K V : Type} [DecidableEq K] (rows : List (K × V)) :
    ∀ s : SKState K V,
      (singleKeyRunFrom s rows).fed
        = s.fed ++ rows.map
            (fun r => (singleKeyRunFrom s rows).keys.findIdx (fun x => x = r.1)) := by
  induction rows with
  | nil => intro s; simp [singleKeyRunFrom]
  | cons r rows ih =>
      intro s
      have hstep : singleKeyRunFrom s (r :: rows)
          = singleKeyRunFrom (singleKeyStep s r) rows := rfl
      rw [hstep, ih (singleKeyStep s r)]
      obtain ⟨t, ht⟩ := singleKeyRunFrom_keys_extend rows (singleKeyStep s r)
      by_cases h : r.1 ∈ s.keys
      · have hkeys : (singleKeyStep s r).keys = s.keys := by
          simp [singleKeyStep, keyedSetInsert, h]
        have hfedstep : (singleKeyStep s r).fed
            = s.fed ++ [s.keys.findIdx (fun x => x = r.1)] := by
          simp [singleKeyStep, keyedSetInsert, h]
        have hfin : (singleKeyRunFrom (singleKeyStep s r) rows).keys = s.keys ++ t := by
          rw [ht, hkeys]
        have hidx : (singleKeyRunFrom (singleKeyStep s r) rows).keys.findIdx
              (fun x => x = r.1) = s.keys.findIdx (fun x => x = r.1) := by
          rw [hfin]
          exact findIdx_append_of_found _ t s.keys ⟨r.1, h, by simp⟩
        rw [hfedstep]
        simp [hidx]
      · have hkeys : (singleKeyStep s r).keys = s.keys ++ [r.1] := by
          simp [singleKeyStep, keyedSetInsert, h]
        have hfedstep : (singleKeyStep s r).fed = s.fed ++ [s.keys.length] := by
          simp [singleKeyStep, keyedSetInsert, h]
        have hfin : (singleKeyRunFrom (singleKeyStep s r) rows).keys
            = s.keys ++ r.1 :: t := by
          rw [ht, hkeys]; simp
        have hidx : (singleKeyRunFrom (singleKeyStep s r) rows).keys.findIdx
              (fun x => x = r.1) = s.keys.length := by
          rw [hfin]
          exact findIdx_append_new r.1 t s.keys h
        rw [hfedstep]
        simp [hidx]

theorem singleKeyRunFrom_keys_fold {K V : Type} [DecidableEq K] (rows : List (K × V)) :
    ∀ s : SKState K V,
      (singleKeyRunFrom s rows).keys
        = rows.foldl (fun acc r => dedupStep acc r.1) s.keys := by
  induction rows with
  | nil => intro s; simp [singleKeyRunFrom]
  | cons r rows ih =>
      intro s
      have hstep : singleKeyRunFrom s (r :: rows)
          = singleKeyRunFrom (singleKeyStep s r) rows := rfl
      rw [hstep, ih (singleKeyStep s r), List.foldl_cons]
      congr 1
      by_cases h : r.1 ∈ s.keys <;> simp [singleKeyStep, keyedSetInsert, dedupStep, h]

theorem singleKeyRun_keys {K V : Type} [DecidableEq K] (rows : List (K × V)) :
    (singleKeyRun rows).keys = firstOccurrences (rows.map Prod.fst) := by
  rw [singleKeyRun, singleKeyRunFrom_keys_fold, firstOccurrences, List.foldl_map]

theorem singleKeyRun_fed {K V : Type} [DecidableEq K] (rows : List (K × V)) :
    (singleKeyRun rows).fed = rows.map (fun r => groupIndexOf rows r.1) := by
  have h := singleKeyRunFrom_fed rows { keys := [], fed := [] }
  simpa [singleKeyRun, groupIndexOf] using h

theorem countAgg_eq {K V : Type} [DecidableEq K] (rows : List (K × V)) :
    countAgg rows = (List.range (numGroups rows)).map
      (fun g => (rows.filter (fun r => groupIndexOf rows r.1 = g)).length) := by
  unfold countAgg
  refine List.map_congr_left (fun g _ => ?_)
  rw [singleKeyRun_fed, List.countP_map, List.countP_eq_length_filter]
  rfl

theorem lookupPair_some_mem {K0 K1 : Type} [DecidableEq K0] [DecidableEq K1]
    (m : List ((K0 × K1) × Nat)) (k : K0 × K1) (i : Nat)
    (h : lookupPair m k = some i) : k ∈ m.map Prod.fst := by
  unfold lookupPair at h
  cases hf : m.find? (fun e => e.1 = k) with
  | none => rw [hf] at h; exact Option.noConfusion h
  | some e =>
      have he : e ∈ m := List.mem_of_find?_eq_some hf
      have hk : e.1 = k := by simpa using List.find?_some hf
      exact hk ▸ List.mem_map_of_mem Prod.fst he

theorem lookupPair_none_not_mem {K0 K1 : Type} [DecidableEq K0] [DecidableEq K1]
    (m : List ((K0 × K1) × Nat)) (k : K0 × K1)
    (h : lookupPair m k = none) : k ∉ m.map Prod.fst := by
  unfold lookupPair at h
  cases hf : m.find? (fun e => e.1 = k) with
  | some e => rw [hf] at h; exact Option.noConfusion h
  | none =>
      intro hm
      obtain ⟨e, he, hk⟩ := List.mem_map.mp hm
      have hne := List.find?_eq_none.mp hf e he
      simp [hk] at hne

theorem twoKeyRunFrom_kts {K0 K1 : Type} [DecidableEq K0] [DecidableEq K1]
    (rows : List (K0 × K1)) :
    ∀ s : TKState K0 K1,
      (twoKeyRunFrom s rows).key_tuple_set.map Prod.fst
        = rows.foldl dedupStep (s.key_tuple_set.map Prod.fst) := by
  induction rows with
  | nil => intro s; simp [twoKeyRunFrom]
  | cons k rows ih =>
      intro s
      have hstep : twoKeyRunFrom s (k :: rows) = twoKeyRunFrom (twoKeyStep s k) rows := rfl
      rw [hstep, ih (twoKeyStep s k), List.foldl_cons]
      congr 1
      cases hl : lookupPair s.key_tuple_set k with
      | some i =>
          have hm : k ∈ s.key_tuple_set.map Prod.fst := lookupPair_some_mem _ _ _ hl
          simp [twoKeyStep, hl, hm, dedupStep]
      | none =>
          have hm : k ∉ s.key_tuple_set.map Prod.fst := lookupPair_none_not_mem _ _ hl
          simp [twoKeyStep, hl, hm, dedupStep]

theorem twoKeyRunFrom_lens {K0 K1 : Type} [DecidableEq K0] [DecidableEq K1]
    (rows : List (K0 × K1)) :
    ∀ s : TKState K0 K1,
      s.keyed_set_builder0.length = s.key_tuple_set.length →
      s.keyed_set_builder1.length = s.key_tuple_set.length →
      (twoKeyRunFrom s rows).keyed_set_builder0.length
          = (twoKeyRunFrom s rows).key_tuple_set.length
        ∧ (twoKeyRunFrom s rows).keyed_set_builder1.length
          = (twoKeyRunFrom s rows).key_tuple_set.length := by
  induction rows with
  | nil => intro s h0 h1; exact ⟨h0, h1⟩
  | cons k rows ih =>
      intro s h0 h1
      have hstep : twoKeyRunFrom s (k :: rows) = twoKeyRunFrom (twoKeyStep s k) rows := rfl
      rw [hstep]
      cases hl : lookupPair s.key_tuple_set k with
      | some i =>
          exact ih _ (by simp [twoKeyStep, hl, h0]) (by simp [twoKeyStep, hl, h1])
      | none =>
          exact ih _ (by simp [twoKeyStep, hl, h0]) (by simp [twoKeyStep, hl, h1])

theorem twoKeyRun_lens {K0 K1 : Type} [DecidableEq K0] [DecidableEq K1]
    (rows : List (K0 × K1)) :
    (twoKeyRun rows).keyed_set_builder0.length = (twoKeyRun rows).key_tuple_set.length
    ∧ (twoKeyRun rows).keyed_set_builder1.length
      = (twoKeyRun rows).key_tuple_set.length :=
  twoKeyRunFrom_lens rows
    { keyed_set_builder0 := [], keyed_set_builder1 := [], key_tuple_set := [],
      cur_ind := 0, fed := [] } rfl rfl

theorem twoKeyRun_kts_eq {K0 K1 : Type} [DecidableEq K0] [DecidableEq K1]
    (rows : List (K0 × K1)) :
    (twoKeyRun rows).key_tuple_set.map Prod.fst = firstOccurrences rows :=
  twoKeyRunFrom_kts rows
    { keyed_set_builder0 := [], keyed_set_builder1 := [], key_tuple_set := [],
      cur_ind := 0, fed := [] }

theorem fold_value_set_eq_map {V : Type} (rows : List (FoldRow V)) :
    ∀ b : List (Nat × V),
      rows.foldl (fun acc r => acc ++ [(r.tag_offset, r.payload)]) b
        = b ++ rows.map (fun r => (r.tag_offset, r.payload)) := by
  induction rows with
  | nil => intro b; simp
  | cons r rows ih => intro b; simp [List.foldl_cons, ih]

/-! ## Claim theorems -/

/-- Claim C1 is refuted: in two-key grouping, on a repeat occurrence of a
(key0, key1) pair the group index passed to the value builders is 0, not the
dense index recorded at the pair's first occurrence.  Concretely, for rows
with pairs [(1,10), (2,20), (2,20)] the recorded index of (2,20) is 1, yet
the index trace fed to the value builders is [0, 1, 0] — the third row gets
0 because the C++ statement `auto ind = key_tuple_set[tmp_ele];` in the
already-seen branch declares a fresh block-local variable instead of
assigning the outer `ind`. -/
theorem two_key_repeat_pair_feeds_index_zero :
    (twoKeyRun [((1 : Nat), (10 : Nat)), ((2 : Nat), (20 : Nat)),
        ((2 : Nat), (20 : Nat))]).fed = [0, 1, 0]
    ∧ lookupPair (twoKeyRun [((1 : Nat), (10 : Nat)), ((2 : Nat), (20 : Nat)),
        ((2 : Nat), (20 : Nat))]).key_tuple_set ((2 : Nat), (20 : Nat)) = some 1
    ∧ (1 : Nat) ≠ 0 := by decide

/-- Claim C2: in two-key grouping, the two finalized key builders always have
equal sizes, both equal to the number of distinct (key0, key1) pairs of the
input, so the fatal size CHECK passes and the operation completes; and the
CHECK is fatal — any unequal pair of sizes produces the "size ueq" error
rather than a normal result. -/
theorem two_key_sizes_equal_distinct_pairs {K0 K1 : Type} [DecidableEq K0]
    [DecidableEq K1] (numAggs : Nat) (rows : List (K0 × K1)) :
    (twoKeyRun rows).keyed_set_builder0.length
        = (twoKeyRun rows).keyed_set_builder1.length
    ∧ (twoKeyRun rows).keyed_set_builder0.length = distinctPairCount rows
    ∧ GroupByImpl2 numAggs rows
        = Except.ok { key0 := (twoKeyRun rows).keyed_set_builder0,
                      key1 := (twoKeyRun rows).keyed_set_builder1,
                      fed := (twoKeyRun rows).fed,
                      offset_vec := twoKeyOffsetVec numAggs
                        (twoKeyRun rows).keyed_set_builder0.length }
    ∧ (∀ a d : Nat, CHECK_size_eq a (a + d + 1) = Except.error ("size ueq")
        ∧ CHECK_size_eq (a + d + 1) a = Except.error ("size ueq")) := by
  have hlen := twoKeyRun_lens rows
  have h1 : (twoKeyRun rows).keyed_set_builder0.length
      = (twoKeyRun rows).keyed_set_builder1.length := hlen.1.trans hlen.2.symm
  have h2 : (twoKeyRun rows).keyed_set_builder0.length = distinctPairCount rows := by
    have e2 : ((twoKeyRun rows).key_tuple_set.map Prod.fst).length
        = (firstOccurrences rows).length := by rw [twoKeyRun_kts_eq]
    rw [List.length_map] at e2
    exact hlen.1.trans e2
  refine ⟨h1, h2, ?_, ?_⟩
  · unfold GroupByImpl2
    rw [show CHECK_size_eq (twoKeyRun rows).keyed_set_builder0.length
        (twoKeyRun rows).keyed_set_builder1.length = Except.ok () from by
      simp [CHECK_size_eq, h1]]
  · intro a d
    constructor
    · simp only [CHECK_size_eq]
      rw [if_neg (by omega)]
    · simp only [CHECK_size_eq]
      rw [if_neg (by omega)]

/-- Claim C3 is refuted: the "unimplemented" else branch of two-key grouping
(taken when a key is property-based) does NOT fail at compile/setup time.
Its guard is `static_assert("Not implemented")`, and a C++ string literal
used as the assert condition converts to a non-null pointer, hence `true`,
so the assert never fires; compilation succeeds and the branch silently
falls off the end of the function. -/
theorem two_key_property_branch_no_fail_fast :
    twoKeyPropertyBranchCompileError = false
    ∧ cxxStringLiteralAsBool ("Not implemented") = true := by decide

/-- Claim C4: the key-less fold fails fatally, for every input row list, when
the context's sub_task_start_tag is invalid (absent) — the error is produced
before the row loop and no output context exists — and it succeeds whenever a
valid sub_task_start_tag is present. -/
theorem fold_requires_sub_task_start_tag {V : Type} (rows : List (FoldRow V))
    (tag : Nat) :
    GroupByWithoutKeyImpl (V := V) none rows = Except.error ("Not implemented now")
    ∧ ∃ c, GroupByWithoutKeyImpl (V := V) (some tag) rows = Except.ok c :=
  ⟨rfl, ⟨_, rfl⟩⟩

/-- Claim C5: in single-key grouping, the finalized keyed set lists the
distinct keys in first-occurrence order, each row is fed with the dense index
its key occupies in that set, and the COUNT aggregate of group g is the number
of input rows whose key resolves to g; in particular key values [A, A, B, C, B]
(as 0, 0, 1, 2, 1) yield groups [A, B, C] with counts [2, 2, 1]. -/
theorem single_key_first_occurrence_order_and_count {K V : Type} [DecidableEq K]
    (rows : List (K × V)) :
    (singleKeyRun rows).keys = firstOccurrences (rows.map Prod.fst)
    ∧ (singleKeyRun rows).fed = rows.map (fun r => groupIndexOf rows r.1)
    ∧ countAgg rows = (List.range (numGroups rows)).map
        (fun g => (rows.filter (fun r => groupIndexOf rows r.1 = g)).length)
    ∧ (singleKeyRun [((0 : Nat), (10 : Nat)), (0, 20), (1, 30), (2, 40),
        (1, 50)]).keys = [0, 1, 2]
    ∧ countAgg [((0 : Nat), (10 : Nat)), (0, 20), (1, 30), (2, 40), (1, 50)]
        = [2, 2, 1] :=
  ⟨singleKeyRun_keys rows, singleKeyRun_fed rows, countAgg_eq rows,
    by decide, by decide⟩

/-- Claim C6: the aggregate result resolver of group_by.h coincides, on every
(source shape, aggregate function, selector type) triple, with the fixed
table of the specification — in particular COUNT with the identity selector
yields a scalar-count collection for any source shape, SUM over a generic
collection keeps the element type, TO_LIST/TO_SET over a vertex set with
property P yields a collection of list-of-P — and every triple outside the
table resolves to `none` (no template specialization exists: a compile/setup
failure, e.g. MAX over a generic collection). -/
theorem resolver_matches_spec_table :
    (∀ s f p, GroupValueResTImpl s f p = specResolutionTable s f p)
    ∧ (∀ s, GroupValueResTImpl s AggFunc.COUNT CppType.emptyType
        = some (ResShape.collection CppType.sizeT))
    ∧ (∀ t, GroupValueResTImpl (SetShape.collection t) AggFunc.SUM CppType.emptyType
        = some (ResShape.collection t))
    ∧ (∀ p, GroupValueResTImpl SetShape.rowVertexSet AggFunc.TO_LIST p
        = some (ResShape.collectionVec p))
    ∧ (∀ p, GroupValueResTImpl SetShape.rowVertexSet AggFunc.TO_SET p
        = some (ResShape.collectionVec p))
    ∧ (∀ t p, GroupValueResTImpl (SetShape.collection t) AggFunc.MAX p = none) := by
  refine ⟨?_, ?_, ?_, ?_, ?_, ?_⟩
  · intro s f p
    cases s <;> cases f <;> cases p <;> rfl
  · intro s; cases s <;> rfl
  · intro t; rfl
  · intro p; cases p <;> rfl
  · intro p; cases p <;> rfl
  · intro t p; cases p <;> rfl

/-- Claim C7: single-key and two-key grouping re-tag the output columns from 0
(key column(s) first, then the aggregate columns, consecutively), while the
key-less fold assigns its new columns tags starting at max_tag_id + 1, all of
them strictly above every tag of the input context. -/
theorem output_retagging (numAggs max_tag_id : Nat) :
    singleKeyOutputTags numAggs = List.range (1 + numAggs)
    ∧ twoKeyOutputTags numAggs = List.range (2 + numAggs)
    ∧ foldOutputTags max_tag_id numAggs
        = (List.range numAggs).map (fun i => max_tag_id + 1 + i)
    ∧ (foldOutputTags max_tag_id numAggs).all (fun t => max_tag_id < t) = true := by
  refine ⟨?_, ?_, rfl, ?_⟩
  · simp [singleKeyOutputTags, contextTags, GroupResT1.base_tag]
  · simp [twoKeyOutputTags, contextTags, GroupResT2.base_tag]
  · simp only [foldOutputTags, contextTags, FoldResT.base_tag, List.all_eq_true]
    intro t ht
    obtain ⟨i, _, rfl⟩ := List.mem_map.mp ht
    simp only [decide_eq_true_eq]
    omega

/-- Claim C8 as stated is false at single-key grouping with one aggregate over
3 groups: the offset vector then holds exactly 1 vector, but the spec's slot
count (key columns + value columns) is 2. -/
theorem offset_vec_not_one_per_slot :
    (singleKeyOffsetVec 1 3).length = 1 ∧ specSlotCount1 1 = 2
    ∧ (singleKeyOffsetVec 1 3).length ≠ specSlotCount1 1 := by decide

/-- Claim C8, amended: the grouping offset vector holds one vector per output
column beyond the context head — number-of-aggregates vectors for single-key
grouping and number-of-aggregates + 1 for two-key grouping (accounting for the
extra key slot) — each vector of length groups + 1 and monotonically
non-decreasing. -/
theorem offset_vec_sizing (numAggs groups : Nat) :
    (singleKeyOffsetVec numAggs groups).length = numAggs
    ∧ (twoKeyOffsetVec numAggs groups).length = numAggs + 1
    ∧ singleKeyOffsetVec numAggs groups
        = List.replicate numAggs (List.range (groups + 1))
    ∧ twoKeyOffsetVec numAggs groups
        = List.replicate (numAggs + 1) (List.range (groups + 1))
    ∧ (List.range (groups + 1)).length = groups + 1
    ∧ (List.range (groups + 1)).Pairwise (fun a b => a ≤ b) := by
  refine ⟨by simp [singleKeyOffsetVec, make_offset_vector],
    by simp [twoKeyOffsetVec, make_offset_vector], rfl, rfl, by simp, ?_⟩
  exact (List.pairwise_lt_range (groups + 1)).imp (fun h => Nat.le_of_lt h)

/-- Claim C9: in single-key grouping with numAggs + 1 aggregate descriptors
the head of the output context is the LAST aggregate column (head tag equal to
the number of aggregates), not the keyed set, which sits at position 0 with
tag 0; with zero aggregate descriptors the keyed set itself is the head at
tag 0. -/
theorem single_key_head_column (numAggs : Nat) :
    singleKeyHeadCol (numAggs + 1) = some (OutCol.valueSet numAggs)
    ∧ OutCol.valueSet numAggs ≠ OutCol.keyedSet
    ∧ GroupResT1.new_cur_alias (numAggs + 1) = numAggs + 1
    ∧ (singleKeyNodes (numAggs + 1))[0]? = some OutCol.keyedSet
    ∧ (singleKeyOutputTags (numAggs + 1))[0]? = some 0
    ∧ singleKeyHeadCol 0 = some OutCol.keyedSet
    ∧ GroupResT1.new_cur_alias 0 = 0 := by
  refine ⟨?_, by simp, rfl, by simp [singleKeyNodes], ?_, rfl, rfl⟩
  · simp [singleKeyHeadCol, singleKeyNodes, List.getElem?_map,
      List.getElem?_range (Nat.lt_succ_self numAggs)]
  · simp [singleKeyOutputTags, contextTags, GroupResT1.base_tag,
      List.getElem?_map, List.getElem?_range (show 0 < 1 + (numAggs + 1) by omega)]

/-- Claim C10: the key-less fold takes exactly one aggregate descriptor, feeds
the value builder each row with group index equal to that row's tag offset of
the sub-task start tag, and returns the single built value set in a context
constructed without any offset vector. -/
theorem fold_single_agg_tag_offset_index {V : Type} (tag : Nat)
    (rows : List (FoldRow V)) :
    foldAggArity = 1
    ∧ GroupByWithoutKeyImpl (some tag) rows
        = Except.ok { value_set := rows.map (fun r => (r.tag_offset, r.payload)),
                      sub_task_start_tag := tag, offset_vec := [] } := by
  refine ⟨rfl, ?_⟩
  simp [GroupByWithoutKeyImpl, fold_value_set_eq_map]

end gs
